import Mathlib

/-!
Verification of the reddit-time-warp backend (src/backend/src): a shallow
embedding of its data model and operations, with theorems checking the
natural-language specification against the code.

Conventions of the embedding:
* Python `datetime` instants are modelled as integer epoch seconds (`Int`);
  the code only compares instants and takes differences of their timestamps.
* Python `str` values that the code manipulates character by character
  (file names in `PushshiftDumpFetcher`, decoded dump text) are modelled as
  `List Char`; strings that are only compared for equality stay `String`.
* Python `list.sort` is a stable sort; any two stable sorts with the same
  comparator agree, so it is modelled by `List.insertionSort` (stable).
* Fallible operations (`pickle.loads` / `pickle.dumps`) are modelled as
  functions into `Except Unit _` passed in as parameters.
-/

namespace RedditTimeWarp

/-- Model of the pydantic `Comment` class in `subreddit_snapshot.py`. -/
structure Comment where
  id : String
  author : Option String
  body : String
  created_utc : Int
deriving DecidableEq

/-- Model of the pydantic `Submission` class in `subreddit_snapshot.py`.
Note the vote-count fields are named `ups` and `downs` in the source. -/
structure Submission where
  id : String
  title : String
  author : String
  selftext : Option String
  created_utc : Int
  score : Int
  ups : Option Int
  downs : Option Int
  num_comments : Option Int
  media_url : Option String
deriving DecidableEq

/-- Model of `SimpleSubredditSnapshot.__init__` state. -/
structure SimpleSubredditSnapshot where
  subreddit_name : String
  snapshot_datetime : Int
  submissions : List Submission
  comments : List (String × List Comment)
deriving DecidableEq

/-- The `Literal["new", "old", "top"]` sort mode of `get_submissions`. -/
inductive SortBy where
  | new
  | old
  | top
deriving DecidableEq

/-- Sort relation for `sort_by == "new"`: `sort(key=created_utc, reverse=True)`,
a stable descending sort by creation time. -/
def newLe (a b : Submission) : Prop := b.created_utc ≤ a.created_utc

/-- Sort relation for `sort_by == "old"`: `sort(key=created_utc)`, a stable
ascending sort by creation time. -/
def oldLe (a b : Submission) : Prop := a.created_utc ≤ b.created_utc

/-- Sort relation for `sort_by == "top"`: `sort(key=score, reverse=True)`,
a stable descending sort by score. -/
def topLe (a b : Submission) : Prop := b.score ≤ a.score

instance : DecidableRel newLe :=
  fun a b => inferInstanceAs (Decidable (b.created_utc ≤ a.created_utc))

instance : DecidableRel oldLe :=
  fun a b => inferInstanceAs (Decidable (a.created_utc ≤ b.created_utc))

instance : DecidableRel topLe :=
  fun a b => inferInstanceAs (Decidable (b.score ≤ a.score))

instance : IsTotal Submission newLe := ⟨fun a b => le_total b.created_utc a.created_utc⟩

instance : IsTrans Submission newLe := ⟨fun _ _ _ h1 h2 => le_trans h2 h1⟩

instance : IsTotal Submission oldLe := ⟨fun a b => le_total a.created_utc b.created_utc⟩

instance : IsTrans Submission oldLe := ⟨fun _ _ _ h1 h2 => le_trans h1 h2⟩

instance : IsTotal Submission topLe := ⟨fun a b => le_total b.score a.score⟩

instance : IsTrans Submission topLe := ⟨fun _ _ _ h1 h2 => le_trans h2 h1⟩

/-- The datetime-range filter loop at the top of
`SimpleSubredditSnapshot.get_submissions`: a submission is skipped when
`start_datetime` is present and `created_utc < start_datetime`, or when
`end_datetime` is present and `created_utc > end_datetime`. -/
def filteredSubs (subs : List Submission) (startDt endDt : Option Int) : List Submission :=
  subs.filter fun s =>
    (match startDt with
     | some t => decide (t ≤ s.created_utc)
     | none => true) &&
    (match endDt with
     | some t => decide (s.created_utc ≤ t)
     | none => true)

/-- Model of `SimpleSubredditSnapshot.get_submissions`: filter by the datetime
range, stable-sort according to `sort_by`, then slice
`[skip : skip + limit]` (`[skip:]` when `limit` is `None`). -/
def get_submissions (subs : List Submission) (startDt endDt : Option Int)
    (sortBy : SortBy) (limit : Option Nat) (skip : Nat) : List Submission :=
  let filtered := filteredSubs subs startDt endDt
  let sorted :=
    match sortBy with
    | SortBy.new => filtered.insertionSort newLe
    | SortBy.old => filtered.insertionSort oldLe
    | SortBy.top => filtered.insertionSort topLe
  match limit with
  | none => sorted.drop skip
  | some n => (sorted.drop skip).take n

/-- Model of `getattr(submission, "upvotes", None)` inside `hot_score`:
the `Submission` class defines no attribute named `upvotes` (its vote-count
field is named `ups`), so the `getattr` default `None` is always returned. -/
def getattrUpvotes (_ : Submission) : Option Int := none

/-- Model of `getattr(submission, "downvotes", None)` inside `hot_score`:
the `Submission` class defines no attribute named `downvotes` (its
vote-count field is named `downs`), so the default `None` is always returned. -/
def getattrDownvotes (_ : Submission) : Option Int := none

/-- The effective score selected at the top of `hot_score`: the plain
`score`, replaced by `upvotes - downvotes` when both `getattr` lookups
return a value. -/
def hotEffectiveScore (s : Submission) : Int :=
  match getattrUpvotes s, getattrDownvotes s with
  | some u, some d => u - d
  | _, _ => s.score

/-- The `sign` computed by `hot_score`. -/
def hotSign (s : Submission) : Int :=
  if 0 < hotEffectiveScore s then 1
  else if hotEffectiveScore s < 0 then -1
  else 0

/-- Model of Python `round(x, 7)` over the reals. Python rounds half to
even while `round` rounds half up; the two agree away from exact midpoints,
in particular on every value this development evaluates. -/
noncomputable def round7 (x : ℝ) : ℝ := (round (x * 10 ^ 7) : ℤ) / 10 ^ 7

/-- Model of the `hot_score` closure in
`SimpleSubredditSnapshot.get_hot_submissions`:
`round(sign * log10(max(abs(score), 1)) + (created_utc - 1134028003) / 45000, 7)`. -/
noncomputable def hot_score (s : Submission) : ℝ :=
  round7 ((hotSign s : ℝ) * Real.logb 10 ((max |hotEffectiveScore s| 1 : ℤ) : ℝ)
    + ((s.created_utc : ℝ) - 1134028003) / 45000)

/-- Model of `SimpleSubredditSnapshot.get_hot_submissions`: stable sort by
`hot_score` descending, then slice `[skip : skip + limit]`. -/
noncomputable def get_hot_submissions (subs : List Submission)
    (limit : Option Nat) (skip : Nat) : List Submission :=
  let sorted :=
    @List.insertionSort Submission (fun a b => hot_score b ≤ hot_score a)
      (Classical.decRel _) subs
  match limit with
  | none => sorted.drop skip
  | some n => (sorted.drop skip).take n

/-- Model of the `while True` loop of `read_lines_zst` in
`pushshift_dump_fetcher.py`. The input is the sequence of successfully
decoded text chunks produced by `read_and_decode` (the decompressor
returns an empty chunk at end of stream, at which point the loop breaks).
Each iteration splits `buffer + chunk` on the line separator, yields every
piece except the last, and carries the last piece over as the new buffer.
The loop body after the final chunk breaks without touching the buffer. -/
def read_lines_zst (buffer : List Char) : List (List Char) → List (List Char)
  | [] => []
  | chunk :: rest =>
    if chunk = [] then []
    else
      ((buffer ++ chunk).splitOn '\n').dropLast
        ++ read_lines_zst ((buffer ++ chunk).splitOn '\n').getLast! rest

/-- The characters of the file-name suffix `"_submissions.zst"` used by
`PushshiftDumpFetcher.available_subreddits`. -/
def submissionsSuffix : List Char :=
  ['_', 's', 'u', 'b', 'm', 'i', 's', 's', 'i', 'o', 'n', 's', '.', 'z', 's', 't']

/-- The final path component of a file name, as computed by
`pathlib.Path(file).name`: everything after the last path separator. -/
def pathBase (l : List Char) : List Char :=
  (l.reverse.takeWhile fun c => c != '/').reverse

/-- Model of `pathlib.Path(file).stem`: the final path component with its
last extension removed (the part after the last dot), or unchanged when it
contains no dot. The Python corner case of a leading-dot file name does not
arise for the names handled here, which all end in `.zst`. -/
def pathStem (l : List Char) : List Char :=
  if '.' ∈ pathBase l then
    (((pathBase l).reverse.dropWhile fun c => c != '.').tail).reverse
  else pathBase l

/-- Model of Python `s.split("_")[0]`: the longest underscore-free
leading segment of `s`. -/
def firstUnderscoreToken (l : List Char) : List Char :=
  l.takeWhile fun c => c != '_'

/-- Model of `PushshiftDumpFetcher.available_subreddits`: for every
`(file, size)` reported by the torrent downloader whose name ends with
`"_submissions.zst"`, emit `(Path(file).stem.split("_")[0], size)`. -/
def available_subreddits_fetcher (files : List (List Char × Int)) :
    List (List Char × Int) :=
  files.filterMap fun fs =>
    if submissionsSuffix.isSuffixOf fs.1 then
      some (firstUnderscoreToken (pathStem fs.1), fs.2)
    else none

/-- A parsed line of the dump, as consumed by
`PushshiftRedditWarper.get_subreddit`. The `subreddit` field is optional
because `submission.get("subreddit")` returns `None` when absent;
`created_utc` is modelled after the `int`/`str`-to-int conversion. -/
structure RawSubmission where
  subreddit : Option String
  id : String
  title : String
  author : String
  selftext : Option String
  created_utc : Int
  score : Int
  ups : Option Int
  downs : Option Int
  num_comments : Option Int
  url : Option String
deriving DecidableEq

/-- The `Submission(...)` construction inside
`PushshiftRedditWarper.get_subreddit`. -/
def toSubmission (r : RawSubmission) : Submission :=
  { id := r.id
    title := r.title
    author := r.author
    selftext := r.selftext
    created_utc := r.created_utc
    score := r.score
    ups := r.ups
    downs := r.downs
    num_comments := r.num_comments
    media_url := r.url }

/-- Model of `PushshiftRedditWarper.get_subreddit`: skip records whose
`subreddit` field differs from the requested name, skip records created
after the cutoff, convert the rest, and pair every kept submission with an
empty comment list. -/
def get_subreddit_pushshift (raws : List RawSubmission) (name : String)
    (cutoff : Int) : SimpleSubredditSnapshot :=
  let subs := raws.filterMap fun r =>
    if r.subreddit ≠ some name then none
    else if cutoff < r.created_utc then none
    else some (toSubmission r)
  { subreddit_name := name
    snapshot_datetime := cutoff
    submissions := subs
    comments := subs.map fun s => (s.id, []) }

/-- Descending-size comparison used by
`PushshiftRedditWarper.available_subreddits` (`sort(key=size, reverse=True)`). -/
def sizeDescLe (a b : String × Int) : Prop := b.2 ≤ a.2

instance : DecidableRel sizeDescLe :=
  fun a b => inferInstanceAs (Decidable (b.2 ≤ a.2))

instance : IsTotal (String × Int) sizeDescLe := ⟨fun a b => le_total b.2 a.2⟩

instance : IsTrans (String × Int) sizeDescLe := ⟨fun _ _ _ h1 h2 => le_trans h2 h1⟩

/-- The size filter inside `PushshiftRedditWarper.available_subreddits`:
`if self.max_subreddit_size_bytes:` is Python truthiness, so the filter is
applied only when the configured value is present and nonzero. -/
def sizeFiltered (pairs : List (String × Int)) (maxSize : Option Int) :
    List (String × Int) :=
  match maxSize with
  | none => pairs
  | some m => if m = 0 then pairs else pairs.filter fun x => decide (x.2 ≤ m)

/-- The filtered list of `PushshiftRedditWarper.available_subreddits`
after its stable descending sort by size. -/
def sizeRanked (pairs : List (String × Int)) (maxSize : Option Int) :
    List (String × Int) :=
  (sizeFiltered pairs maxSize).insertionSort sizeDescLe

/-- Model of `PushshiftRedditWarper.available_subreddits`: filter by the
configured maximum size (when truthy), sort by size descending, return the
names. -/
def available_subreddits_warper (pairs : List (String × Int))
    (maxSize : Option Int) : List String :=
  (sizeRanked pairs maxSize).map Prod.fst

/-- The fetch-and-cache tail shared by both `CachedRedditWarper` methods:
build the fresh value via the inner warper, then `pickle.dumps` and store
it inside a `try` block, leaving the cache entry absent when serialization
fails, and return the fresh value either way. The pair is
(returned result, final cache entry under the key). -/
def storeFresh {α β : Type} (inner : α) (ser : α → Except Unit β) :
    Except Unit α × Option β :=
  match ser inner with
  | Except.ok b2 => (Except.ok inner, some b2)
  | Except.error _ => (Except.ok inner, none)

/-- Model of `CachedRedditWarper.get_subreddit` for one cache key.
`cached` is the entry found by `subreddit_cache.get`; `deser` models
`pickle.loads` and `ser` models `pickle.dumps`; `inner` is the snapshot the
inner warper would build. On a hit the entry is unpickled inside a `try`:
success returns it, failure pops the corrupted entry and falls through to
the rebuild path. -/
def get_subreddit_cached {α β : Type} (cached : Option β)
    (deser : β → Except Unit α) (inner : α) (ser : α → Except Unit β) :
    Except Unit α × Option β :=
  match cached with
  | some b =>
    match deser b with
    | Except.ok s => (Except.ok s, some b)
    | Except.error _ => storeFresh inner ser
  | none => storeFresh inner ser

/-- Model of `CachedRedditWarper.available_subreddits` for its single cache
key. On a hit the source runs `return pickle.loads(cached)` with no
`try`/`except`, so the deserialization outcome is returned verbatim and the
entry is left in place; only on a miss is the list rebuilt and stored. -/
def available_subreddits_cached {β : Type} (cached : Option β)
    (deser : β → Except Unit (List String)) (inner : List String)
    (ser : List String → Except Unit β) :
    Except Unit (List String) × Option β :=
  match cached with
  | some b => (deser b, some b)
  | none => storeFresh inner ser

/-- Outcome of one `TorrentDownloader.download_file` call: the returned
path and whether the remote torrent download was performed. -/
structure DownloadOutcome where
  path : String
  remoteInvoked : Bool
deriving DecidableEq

/-- Model of the `TorrentDownloader.download_file` control flow.
`cacheGetInitial` is what `self.cache.get(cache_key)` returns before the
lock is taken; `cacheGetAfterLock` is what a second `self.cache.get` would
return once the per-key lock has been acquired. The source performs no
such re-check: after the initial miss it acquires the lock and downloads
unconditionally, so `cacheGetAfterLock` is never consulted. -/
def download_file (cacheGetInitial : Option String)
    (cacheGetAfterLock : Option String) (remotePath : String) :
    DownloadOutcome :=
  match cacheGetInitial, cacheGetAfterLock with
  | some p, _ => { path := p, remoteInvoked := false }
  | none, _ => { path := remotePath, remoteInvoked := true }

/-- Concrete submission exercising the vote-count branch of `hot_score`:
both vote counts are present (`ups = 10`, `downs = 2`) and differ from the
plain score. -/
def votedSub : Submission :=
  { id := "x", title := "t", author := "a", selftext := none,
    created_utc := 0, score := 5, ups := some 10, downs := some 2,
    num_comments := none, media_url := none }

/-- A raw record that passes both filters of
`PushshiftRedditWarper.get_subreddit` for subreddit `"funny"` at cutoff
`100`. -/
def keptRaw : RawSubmission :=
  { subreddit := some "funny", id := "p1", title := "t", author := "u",
    selftext := none, created_utc := 50, score := 3, ups := none,
    downs := none, num_comments := none, url := none }

/-- A raw record with a foreign `subreddit` field. -/
def foreignRaw : RawSubmission :=
  { subreddit := some "other", id := "p2", title := "t", author := "u",
    selftext := none, created_utc := 40, score := 1, ups := none,
    downs := none, num_comments := none, url := none }

/-- A raw record created after the cutoff `100`. -/
def lateRaw : RawSubmission :=
  { subreddit := some "funny", id := "p3", title := "t", author := "u",
    selftext := none, created_utc := 200, score := 9, ups := none,
    downs := none, num_comments := none, url := none }

/-- Two submissions with distinct creation times, for concrete sorting
checks. -/
def earlySub : Submission :=
  { id := "a", title := "t", author := "u", selftext := none,
    created_utc := 1, score := 0, ups := none, downs := none,
    num_comments := none, media_url := none }

/-- Companion to `earlySub` with a later creation time. -/
def lateSub : Submission :=
  { id := "b", title := "t", author := "u", selftext := none,
    created_utc := 2, score := 0, ups := none, downs := none,
    num_comments := none, media_url := none }

/-- A record with plain score `0`, no vote counts, created exactly at the
reference epoch second `1134028003` of the hot formula. -/
def refSubZero : Submission :=
  { id := "z", title := "t", author := "u", selftext := none,
    created_utc := 1134028003, score := 0, ups := none, downs := none,
    num_comments := none, media_url := none }

/-- A record with plain score `100`, no vote counts, created `45000`
seconds after the reference epoch of the hot formula. -/
def refSubHundred : Submission :=
  { id := "h", title := "t", author := "u", selftext := none,
    created_utc := 1134028003 + 45000, score := 100, ups := none,
    downs := none, num_comments := none, media_url := none }

/-- C1. The spec says the effective score of the hot formula is
`upvotes - downvotes` whenever both vote counts are present on the record.
The code reads attributes named `upvotes`/`downvotes`, which do not exist
on `Submission` (the fields are `ups`/`downs`), so `getattr` always
returns `None` and the plain score is used even when both vote counts are
present: for a record with `score = 5`, `ups = 10`, `downs = 2` the
effective score is `5`, not `10 - 2 = 8`. -/
theorem hot_effective_score_ignores_vote_counts :
    hotEffectiveScore votedSub = votedSub.score ∧
    votedSub.ups = some 10 ∧ votedSub.downs = some 2 ∧
    hotEffectiveScore votedSub ≠ 10 - 2 := by decide

/-- C2. Fed the single decoded chunk `"a\nb"` (no trailing separator), the
loop of `read_lines_zst` yields only `"a"`: at end of stream it breaks
with the non-empty carry-over `"b"` still in the buffer, so the final
unterminated line is silently dropped, contradicting the spec. -/
theorem read_lines_zst_drops_final_carry :
    read_lines_zst [] [['a', '\n', 'b']] = [['a']] ∧
    ['b'] ∉ read_lines_zst [] [['a', '\n', 'b']] := by decide

/-- C3 counterexample. A cached availability-list entry whose
deserialization fails is returned as the error itself:
`available_subreddits` calls `pickle.loads(cached)` outside any
`try`/`except`, so the caller sees the error instead of a rebuilt list. -/
theorem available_subreddits_cached_error_propagates :
    (available_subreddits_cached (some 0)
        (fun _ : Nat => (Except.error () : Except Unit (List String)))
        ["a"] (fun _ => Except.ok 1)).1 = Except.error () ∧
    (available_subreddits_cached (some 0)
        (fun _ : Nat => (Except.error () : Except Unit (List String)))
        ["a"] (fun _ => Except.ok 1)).1 ≠ Except.ok ["a"] :=
  ⟨rfl, fun h => Except.noConfusion h⟩

/-- C3 amended. `CachedRedditWarper.available_subreddits` does not follow
the self-heal pattern of the snapshot path: on a cache hit the result of
deserialization is returned verbatim, so a deserialization failure
propagates to the caller and the corrupted entry stays in place; only on a
cache miss is the list rebuilt via the inner warper, and then a
serialization failure does not prevent returning the fresh list. -/
theorem available_subreddits_cached_behavior {β : Type}
    (deser : β → Except Unit (List String)) (inner : List String)
    (ser : List String → Except Unit β) :
    (available_subreddits_cached (none : Option β) deser inner ser).1 =
      Except.ok inner ∧
    (∀ b l, deser b = Except.ok l →
      (available_subreddits_cached (some b) deser inner ser).1 = Except.ok l) ∧
    (∀ b, deser b = Except.error () →
      available_subreddits_cached (some b) deser inner ser =
        (Except.error (), some b)) := by
  refine ⟨?_, ?_, ?_⟩
  · show (storeFresh inner ser).1 = Except.ok inner
    rw [storeFresh]
    cases ser inner <;> rfl
  · intro b l h
    show (deser b, some b).1 = Except.ok l
    rw [h]
  · intro b h
    show (deser b, some b) = (Except.error (), some b)
    rw [h]

/-- C3 witness: the amended behavior at concrete inputs — a corrupted
cached entry makes the call return the deserialization error. -/
theorem available_subreddits_cached_behavior_witness :
    available_subreddits_cached (some 5)
        (fun _ : Nat => (Except.error () : Except Unit (List String)))
        ["b"] (fun _ => Except.ok 2) = (Except.error (), some 5) :=
  (available_subreddits_cached_behavior _ ["b"] _).2.2 5 rfl

/-- C4 counterexample. With an initial cache miss and an entry that is
populated by the time the per-key lock is held, `download_file` still
invokes the remote download and returns the fresh path: the code performs
no re-check after acquiring the lock. -/
theorem download_file_ignores_populated_entry :
    (download_file none (some "cached") "fresh").remoteInvoked = true ∧
    download_file none (some "cached") "fresh" ≠
      { path := "cached", remoteInvoked := false } := by decide

/-- C4 amended. `TorrentDownloader.download_file` re-checks nothing after
acquiring the per-key lock: a hit at the initial check is the only thing
that prevents invoking the remote capability, and on an initial miss the
remote download is performed unconditionally, whatever the cache holds by
the time the lock is acquired. -/
theorem download_file_no_recheck (cacheGetAfterLock : Option String)
    (remotePath p : String) :
    download_file none cacheGetAfterLock remotePath =
      { path := remotePath, remoteInvoked := true } ∧
    download_file (some p) cacheGetAfterLock remotePath =
      { path := p, remoteInvoked := false } :=
  ⟨rfl, rfl⟩

/-- C6. When the cached snapshot entry fails to deserialize,
`CachedRedditWarper.get_subreddit` returns the freshly built snapshot with
no error — whatever the serialization of the fresh snapshot does — and the
corrupted entry is replaced by the fresh serialization, or removed when
serialization fails. -/
theorem get_subreddit_cached_self_heals {α β : Type}
    (deser : β → Except Unit α) (ser : α → Except Unit β) (inner : α)
    (b : β) (h : deser b = Except.error ()) :
    (get_subreddit_cached (some b) deser inner ser).1 = Except.ok inner ∧
    (get_subreddit_cached (some b) deser inner ser).2 =
      (match ser inner with
       | Except.ok b2 => some b2
       | Except.error _ => none) := by
  have hb : get_subreddit_cached (some b) deser inner ser = storeFresh inner ser := by
    rw [get_subreddit_cached, h]
  rw [hb, storeFresh]
  cases ser inner <;> exact ⟨rfl, rfl⟩

/-- C6 witness: self-healing at concrete inputs where both
deserialization and serialization fail — the fresh snapshot is still
returned. -/
theorem get_subreddit_cached_self_heals_witness :
    (get_subreddit_cached (some 0)
        (fun _ : Nat => (Except.error () : Except Unit Nat)) 7
        (fun _ : Nat => (Except.error () : Except Unit Nat))).1 =
      Except.ok 7 :=
  (get_subreddit_cached_self_heals
    (fun _ : Nat => (Except.error () : Except Unit Nat))
    (fun _ : Nat => (Except.error () : Except Unit Nat)) 7 0 rfl).1

/-- C7. Every submission in a snapshot built by
`PushshiftRedditWarper.get_subreddit` was created no later than the cutoff
and stems from a parsed record whose `subreddit` field equals the
requested name and whose creation instant is within the cutoff; records
failing either condition are skipped without error and contribute
nothing. -/
theorem get_subreddit_pushshift_filters (raws : List RawSubmission)
    (name : String) (cutoff : Int) (s : Submission)
    (h : s ∈ (get_subreddit_pushshift raws name cutoff).submissions) :
    s.created_utc ≤ cutoff ∧
    ∃ r ∈ raws, r.subreddit = some name ∧ r.created_utc ≤ cutoff ∧
      s = toSubmission r := by
  have h2 : s ∈ raws.filterMap fun r =>
      if r.subreddit ≠ some name then none
      else if cutoff < r.created_utc then none
      else some (toSubmission r) := h
  rcases List.mem_filterMap.mp h2 with ⟨r, hr, hf⟩
  by_cases hsub : r.subreddit ≠ some name
  · rw [if_pos hsub] at hf
    exact absurd hf (by simp)
  · rw [if_neg hsub] at hf
    by_cases hlate : cutoff < r.created_utc
    · rw [if_pos hlate] at hf
      exact absurd hf (by simp)
    · rw [if_neg hlate] at hf
      have hs : s = toSubmission r := (Option.some.injEq _ _ ▸ hf).symm
      have hle : r.created_utc ≤ cutoff := le_of_not_lt hlate
      refine ⟨?_, r, hr, not_not.mp hsub, hle, hs⟩
      rw [hs]
      exact hle

/-- C7 witness: the filter theorem applied to the snapshot of a concrete
dump containing a kept record, a foreign record and a late record. -/
theorem get_subreddit_pushshift_filters_witness :
    (toSubmission keptRaw).created_utc ≤ 100 :=
  (get_subreddit_pushshift_filters [keptRaw, foreignRaw, lateRaw] "funny" 100
    (toSubmission keptRaw) (by decide)).1

/-- Stable descending sort by creation time equals the reverse of stable
ascending sort by creation time, provided the creation times in the list
are pairwise distinct. -/
theorem insertionSort_new_eq_reverse_old (l : List Submission)
    (h : l.Pairwise fun a b => a.created_utc ≠ b.created_utc) :
    l.insertionSort newLe = (l.insertionSort oldLe).reverse := by
  haveI : IsAntisymm Submission
      (fun a b : Submission => b.created_utc < a.created_utc) :=
    ⟨fun a b h1 h2 => absurd (lt_trans h1 h2) (lt_irrefl _)⟩
  apply List.eq_of_perm_of_sorted
    (r := fun a b : Submission => b.created_utc < a.created_utc)
  · exact (List.perm_insertionSort newLe l).trans
      ((List.perm_insertionSort oldLe l).symm.trans (List.reverse_perm _).symm)
  · have hs : List.Pairwise newLe (l.insertionSort newLe) :=
      List.sorted_insertionSort newLe l
    have hne : (l.insertionSort newLe).Pairwise
        (fun a b => a.created_utc ≠ b.created_utc) :=
      ((List.perm_insertionSort newLe l).pairwise_iff
        (fun hab => hab.symm)).mpr h
    exact (hs.and hne).imp fun hab => lt_of_le_of_ne hab.1 (Ne.symm hab.2)
  · have hs : List.Pairwise oldLe (l.insertionSort oldLe) :=
      List.sorted_insertionSort oldLe l
    have hne : (l.insertionSort oldLe).Pairwise
        (fun a b => a.created_utc ≠ b.created_utc) :=
      ((List.perm_insertionSort oldLe l).pairwise_iff
        (fun hab => hab.symm)).mpr h
    exact List.pairwise_reverse.mpr
      ((hs.and hne).imp fun hab => lt_of_le_of_ne hab.1 hab.2)

/-- C8 counterexample. Two submissions sharing a creation time: with the
stable sorts of the source, `sortMode=new` and `sortMode=old` both keep
the tied pair in insertion order, so the two orderings are not exact
reverses of each other. -/
theorem sort_new_not_reverse_old_on_ties :
    get_submissions
        [{ id := "a", title := "t", author := "u", selftext := none,
           created_utc := 5, score := 1, ups := none, downs := none,
           num_comments := none, media_url := none },
         { id := "b", title := "t", author := "u", selftext := none,
           created_utc := 5, score := 2, ups := none, downs := none,
           num_comments := none, media_url := none }]
        none none SortBy.new none 0 ≠
      (get_submissions
        [{ id := "a", title := "t", author := "u", selftext := none,
           created_utc := 5, score := 1, ups := none, downs := none,
           num_comments := none, media_url := none },
         { id := "b", title := "t", author := "u", selftext := none,
           created_utc := 5, score := 2, ups := none, downs := none,
           num_comments := none, media_url := none }]
        none none SortBy.old none 0).reverse := by decide

/-- C8 amended. For every snapshot submission list and every time-range
filter, `sortMode=new` and `sortMode=old` (no skip, no limit) return the
same multiset of records, and the two orderings are exact reverses of each
other whenever the creation times of the filtered records are pairwise
distinct. -/
theorem sort_new_reverse_of_sort_old (subs : List Submission)
    (startDt endDt : Option Int) :
    (get_submissions subs startDt endDt SortBy.new none 0).Perm
      (get_submissions subs startDt endDt SortBy.old none 0) ∧
    ((filteredSubs subs startDt endDt).Pairwise
        (fun a b => a.created_utc ≠ b.created_utc) →
      get_submissions subs startDt endDt SortBy.new none 0 =
        (get_submissions subs startDt endDt SortBy.old none 0).reverse) := by
  constructor
  · show ((filteredSubs subs startDt endDt).insertionSort newLe).Perm
      ((filteredSubs subs startDt endDt).insertionSort oldLe)
    exact (List.perm_insertionSort newLe _).trans
      (List.perm_insertionSort oldLe _).symm
  · intro h
    show (filteredSubs subs startDt endDt).insertionSort newLe =
      ((filteredSubs subs startDt endDt).insertionSort oldLe).reverse
    exact insertionSort_new_eq_reverse_old _ h

/-- C8 witness: on a concrete pair with distinct creation times, the
`new` ordering is the exact reverse of the `old` ordering and the
multisets agree. -/
theorem sort_new_reverse_of_sort_old_witness :
    (get_submissions [earlySub, lateSub] none none SortBy.new none 0).Perm
      (get_submissions [earlySub, lateSub] none none SortBy.old none 0) ∧
    get_submissions [earlySub, lateSub] none none SortBy.new none 0 =
      (get_submissions [earlySub, lateSub] none none SortBy.old none 0).reverse :=
  ⟨(sort_new_reverse_of_sort_old [earlySub, lateSub] none none).1,
   (sort_new_reverse_of_sort_old [earlySub, lateSub] none none).2 (by decide)⟩

/-- A takeWhile over elements that all satisfy the predicate is the
identity. -/
theorem takeWhile_eq_self_of_all {p : Char → Bool} :
    ∀ l : List Char, (∀ a ∈ l, p a = true) → l.takeWhile p = l := by
  intro l
  induction l with
  | nil => intro _; rfl
  | cons a t ih =>
    intro h
    simp [List.takeWhile_cons, h a (List.mem_cons_self a t),
      ih fun x hx => h x (List.mem_cons_of_mem a hx)]

/-- A takeWhile walks through a leading block whose elements all satisfy
the predicate. -/
theorem takeWhile_append_of_all {p : Char → Bool} :
    ∀ l₁ l₂ : List Char, (∀ a ∈ l₁, p a = true) →
      (l₁ ++ l₂).takeWhile p = l₁ ++ l₂.takeWhile p := by
  intro l₁
  induction l₁ with
  | nil => intro l₂ _; rfl
  | cons a t ih =>
    intro l₂ h
    simp [List.cons_append, List.takeWhile_cons, h a (List.mem_cons_self a t),
      ih l₂ fun x hx => h x (List.mem_cons_of_mem a hx)]

/-- Every list is a Boolean prefix of itself followed by anything. -/
theorem isPrefixOf_append_self :
    ∀ l₁ l₂ : List Char, l₁.isPrefixOf (l₁ ++ l₂) = true := by
  intro l₁
  induction l₁ with
  | nil => intro l₂; simp [List.isPrefixOf]
  | cons a t ih =>
    intro l₂
    simp [List.isPrefixOf, ih l₂]

/-- The `endswith("_submissions.zst")` test succeeds on every name built
by appending the suffix. -/
theorem suffix_isSuffixOf_append (name : List Char) :
    submissionsSuffix.isSuffixOf (name ++ submissionsSuffix) = true := by
  show submissionsSuffix.reverse.isPrefixOf (name ++ submissionsSuffix).reverse = true
  rw [List.reverse_append]
  exact isPrefixOf_append_self _ _

/-- For a slash-free collection name, the final path component of
`name ++ "_submissions.zst"` is the whole string. -/
theorem pathBase_append_suffix (name : List Char) (h : '/' ∉ name) :
    pathBase (name ++ submissionsSuffix) = name ++ submissionsSuffix := by
  rw [pathBase, List.reverse_append]
  rw [takeWhile_append_of_all _ _ (by decide)]
  rw [takeWhile_eq_self_of_all _ fun a ha => by
    rw [bne_iff_ne]
    exact ne_of_mem_of_not_mem (List.mem_reverse.mp ha) h]
  rw [List.reverse_append, List.reverse_reverse, List.reverse_reverse]

/-- For a slash-free collection name, `Path(name ++ "_submissions.zst").stem`
is `name ++ "_submissions"`. -/
theorem pathStem_append_suffix (name : List Char) (h : '/' ∉ name) :
    pathStem (name ++ submissionsSuffix) =
      name ++ ['_', 's', 'u', 'b', 'm', 'i', 's', 's', 'i', 'o', 'n', 's'] := by
  rw [pathStem, pathBase_append_suffix name h]
  rw [if_pos (List.mem_append.mpr (Or.inr (by decide)))]
  rw [List.reverse_append]
  rw [show submissionsSuffix.reverse =
    ['t', 's', 'z', '.', 's', 'n', 'o', 'i', 's', 's', 'i', 'm', 'b', 'u', 's', '_']
    from by decide]
  rw [show ∀ t : List Char,
      List.dropWhile (fun c => c != '.')
        (['t', 's', 'z', '.', 's', 'n', 'o', 'i', 's', 's', 'i', 'm', 'b', 'u', 's', '_'] ++ t) =
        '.' :: (['s', 'n', 'o', 'i', 's', 's', 'i', 'm', 'b', 'u', 's', '_'] ++ t)
    from fun t => rfl]
  rw [List.tail_cons, List.reverse_append, List.reverse_reverse]
  rw [show (['s', 'n', 'o', 'i', 's', 's', 'i', 'm', 'b', 'u', 's', '_'] : List Char).reverse =
    ['_', 's', 'u', 'b', 'm', 'i', 's', 's', 'i', 'o', 'n', 's'] from by decide]

/-- The per-file map of `available_subreddits_fetcher` recovers an
underscore-free, slash-free collection name exactly. -/
theorem available_entry_eq (name : List Char) (size : Int) (hs : '/' ∉ name)
    (hu : '_' ∉ name) :
    (if submissionsSuffix.isSuffixOf (name ++ submissionsSuffix) then
        some (firstUnderscoreToken (pathStem (name ++ submissionsSuffix)), size)
      else none) = some (name, size) := by
  rw [suffix_isSuffixOf_append, if_pos rfl, pathStem_append_suffix name hs]
  rw [firstUnderscoreToken]
  rw [show (name ++ ['_', 's', 'u', 'b', 'm', 'i', 's', 's', 'i', 'o', 'n', 's']) =
    name ++ '_' :: ['s', 'u', 'b', 'm', 'i', 's', 's', 'i', 'o', 'n', 's'] from rfl]
  rw [takeWhile_append_of_all _ _ fun a ha => by
    rw [bne_iff_ne]
    exact ne_of_mem_of_not_mem ha hu]
  rw [show List.takeWhile (fun c => c != '_')
    ('_' :: ['s', 'u', 'b', 'm', 'i', 's', 's', 'i', 'o', 'n', 's']) = [] from rfl]
  rw [List.append_nil]

/-- C5 counterexample. For the remote file
`"ask_reddit_submissions.zst"` — collection name `"ask_reddit"`, which
contains an underscore — the enumeration reports `"ask"`:
`path.stem.split("_")[0]` keeps only the part before the first
underscore instead of stripping the known suffix. -/
theorem available_subreddits_fetcher_truncates :
    available_subreddits_fetcher
        [(['a', 's', 'k', '_', 'r', 'e', 'd', 'd', 'i', 't'] ++ submissionsSuffix, 7)] =
      [(['a', 's', 'k'], 7)] ∧
    (['a', 's', 'k', '_', 'r', 'e', 'd', 'd', 'i', 't'], 7) ∉
      available_subreddits_fetcher
        [(['a', 's', 'k', '_', 'r', 'e', 'd', 'd', 'i', 't'] ++ submissionsSuffix, 7)] := by
  decide

/-- C5 amended. For every remote file whose name is a collection name
followed by `"_submissions.zst"`, the enumeration reports the portion of
the file's stem before the first underscore, paired with the file's byte
size; this equals the collection name exactly when the name contains no
underscore (and no path separator). -/
theorem available_subreddits_fetcher_strips (files : List (List Char × Int))
    (name : List Char) (size : Int)
    (hmem : (name ++ submissionsSuffix, size) ∈ files)
    (hu : '_' ∉ name) (hs : '/' ∉ name) :
    (name, size) ∈ available_subreddits_fetcher files :=
  List.mem_filterMap.mpr
    ⟨(name ++ submissionsSuffix, size), hmem, available_entry_eq name size hs hu⟩

/-- C5 witness: the underscore-free name `"foo"` is recovered exactly
from `"foo_submissions.zst"`. -/
theorem available_subreddits_fetcher_strips_witness :
    (['f', 'o', 'o'], 9) ∈ available_subreddits_fetcher
      [(['f', 'o', 'o'] ++ submissionsSuffix, 9)] :=
  available_subreddits_fetcher_strips _ ['f', 'o', 'o'] 9 (by decide)
    (by decide) (by decide)

/-- C9. The hot score of a record with plain score `0`, no vote counts,
created exactly at the reference epoch second `1134028003`, is exactly
`0`; the hot score of a record with plain score `100`, no vote counts,
created `45000` seconds later, is exactly `3` (both already fixed points
of the rounding to 7 decimal places). -/
theorem hot_score_reference_values :
    hot_score refSubZero = 0 ∧ hot_score refSubHundred = 3 := by
  constructor
  · have h1 : hot_score refSubZero = round7 ((0 : ℝ) * Real.logb 10 1 + 0) := by
      rw [hot_score]
      norm_num [hotSign, hotEffectiveScore, getattrUpvotes, getattrDownvotes,
        refSubZero]
    rw [h1, Real.logb_one, round7]
    norm_num
  · have hlog : Real.logb 10 (100 : ℝ) = 2 := by
      rw [show (100 : ℝ) = 10 ^ (2 : ℕ) from by norm_num]
      rw [Real.logb, Real.log_pow]
      have hpos : (0 : ℝ) < Real.log 10 := Real.log_pos (by norm_num)
      field_simp
    have h1 : hot_score refSubHundred = round7 ((1 : ℝ) * Real.logb 10 100 + 1) := by
      rw [hot_score]
      norm_num [hotSign, hotEffectiveScore, getattrUpvotes, getattrDownvotes,
        refSubHundred]
    rw [h1, hlog, round7]
    rw [show ((1 : ℝ) * 2 + 1) * 10 ^ 7 = ((30000000 : ℤ) : ℝ) from by norm_num]
    rw [round_intCast]
    norm_num

/-- C10 counterexample. `max_subreddit_size_bytes` configured as `0` with
a collection of size `1`: the source guard `if self.max_subreddit_size_bytes:`
is Python truthiness, so the filter is skipped and the oversized
collection is still reported. -/
theorem available_subreddits_warper_zero_max :
    available_subreddits_warper [("a", 1)] (some 0) = ["a"] ∧
    "a" ∈ available_subreddits_warper [("a", 1)] (some 0) := by decide

/-- C10 amended. `PushshiftRedditWarper.available_subreddits` returns the
collection names of the size-filtered descriptor list sorted by descending
dump byte size, and, when the maximum collection size is configured to a
nonzero value, a name is reported exactly when one of its descriptors has
size within the maximum — so every collection all of whose dumps exceed
the maximum is absent (a configured maximum of `0` disables the filter by
Python truthiness). -/
theorem available_subreddits_warper_spec (pairs : List (String × Int))
    (maxSize : Option Int) (m : Int) (hm : m ≠ 0) :
    (sizeRanked pairs maxSize).Pairwise sizeDescLe ∧
    ∀ nm, nm ∈ available_subreddits_warper pairs (some m) ↔
      ∃ sz, (nm, sz) ∈ pairs ∧ sz ≤ m := by
  constructor
  · exact List.sorted_insertionSort sizeDescLe _
  · intro nm
    rw [available_subreddits_warper]
    constructor
    · intro hmem
      rcases List.mem_map.mp hmem with ⟨⟨n1, s1⟩, hp, hfst⟩
      have hp2 : (n1, s1) ∈ sizeFiltered pairs (some m) :=
        (List.perm_insertionSort sizeDescLe _).mem_iff.mp hp
      rw [sizeFiltered, if_neg hm] at hp2
      rcases List.mem_filter.mp hp2 with ⟨hpp, hle⟩
      exact hfst ▸ ⟨s1, hpp, of_decide_eq_true hle⟩
    · rintro ⟨sz, hmem, hle⟩
      apply List.mem_map.mpr
      refine ⟨(nm, sz), ?_, rfl⟩
      apply (List.perm_insertionSort sizeDescLe _).mem_iff.mpr
      rw [sizeFiltered, if_neg hm]
      exact List.mem_filter.mpr ⟨hmem, decide_eq_true hle⟩

/-- C10 witness: the ranked list of a concrete descriptor set with a
configured nonzero maximum is sorted by descending size. -/
theorem available_subreddits_warper_spec_witness :
    (sizeRanked [("a", 5), ("b", 2), ("c", 9)] (some 6)).Pairwise sizeDescLe :=
  (available_subreddits_warper_spec [("a", 5), ("b", 2), ("c", 9)] (some 6) 6
    (by decide)).1

end RedditTimeWarp
